import Mathlib

/-!
# find-keywords-in-text — verification of the spec against the code

Shallow embedding of the request handler in `src/routes/index.js` of the
`mxr576/find-keywords-in-text` repository: a single POST endpoint that
validates a request `{text, keywords, distance}`, runs a preprocessing
pipeline (tokenize, lowercase, deduplicate, stopword-filter) and then
matches every keyword against every surviving token by Levenshtein
distance, keeping matches within the threshold.

Pure parts of the JavaScript become Lean functions.  The `async` fan-outs
(`async.parallel`, `async.map`, `async.waterfall`) run pure callbacks and
collect results at the index of each task, so they are embedded as ordered
`List.map` / function composition.  JavaScript's dynamically typed request
parameters are embedded as an explicit `JSVal` type with the coercion rules
(`parseInt`, `ToNumber`, loose equality) the validation code exercises.
-/

namespace FindKeywords

/-! ## JavaScript value model

Request parameters arrive through restify's body/query parsers, so a field
is either absent (`undefined`), a number (from a JSON body), a string
(from a query/form value), or an array of strings.  JavaScript numbers are
idealized as rationals printed in plain decimal notation; the validation
code only ever distinguishes integer-valued numbers from the rest, so this
does not lose behaviour the handler can observe. -/

inductive JSVal where
  | undef
  | num (q : ℚ)
  | str (s : String)
  | arr (elems : List String)
deriving DecidableEq, Repr

/-- Characters `parseInt` / `ToNumber` skip as leading whitespace. -/
def isJsSpace (c : Char) : Bool :=
  c = ' ' || c = '\t' || c = '\n' || c = '\r'

/-- Numeric value of a list of decimal digit characters. -/
def digitsVal (ds : List Char) : Nat :=
  ds.foldl (fun a c => 10 * a + (c.toNat - '0'.toNat)) 0

/-- `parseInt` on a string: skip leading whitespace, optional sign, then
read the maximal run of leading decimal digits; `none` models `NaN`
(no digits at all). -/
def jsParseIntStr (s : String) : Option Int :=
  let cs := s.data.dropWhile isJsSpace
  match cs with
  | '-' :: rest =>
      let ds := rest.takeWhile Char.isDigit
      if ds = [] then none else some (-(digitsVal ds : Int))
  | '+' :: rest =>
      let ds := rest.takeWhile Char.isDigit
      if ds = [] then none else some (digitsVal ds : Int)
  | _ =>
      let ds := cs.takeWhile Char.isDigit
      if ds = [] then none else some (digitsVal ds : Int)

/-- An unsigned decimal numeral, with an optional fractional part, parsed
in full; `none` models `NaN`. -/
def parseDecimal (cs : List Char) : Option ℚ :=
  let intPart := cs.takeWhile Char.isDigit
  let rest := cs.dropWhile Char.isDigit
  match rest with
  | [] => if intPart = [] then none else some (digitsVal intPart : ℚ)
  | '.' :: fracRest =>
      let fracPart := fracRest.takeWhile Char.isDigit
      let rest2 := fracRest.dropWhile Char.isDigit
      if rest2 = [] ∧ (intPart ≠ [] ∨ fracPart ≠ []) then
        some (mkRat ((digitsVal intPart : Int) * 10 ^ fracPart.length + (digitsVal fracPart : Int))
          (10 ^ fracPart.length))
      else none
  | _ => none

/-- `ToNumber` on a string: trim whitespace at both ends, the empty string
is `0`, otherwise the whole remainder must be a signed decimal numeral;
`none` models `NaN`. -/
def jsToNumberStr (s : String) : Option ℚ :=
  let cs := ((s.data.dropWhile isJsSpace).reverse.dropWhile isJsSpace).reverse
  match cs with
  | [] => some 0
  | '-' :: rest => (parseDecimal rest).map Neg.neg
  | '+' :: rest => parseDecimal rest
  | _ => parseDecimal cs

/-- JavaScript `ToString` of a string array: elements joined by commas. -/
def jsArrToString (elems : List String) : String :=
  String.intercalate "," elems

/-- Truncation toward zero, as `parseInt` applied to the decimal printing
of a number: the numerator of the reduced fraction divided by the
denominator, rounding toward zero. -/
def jsTrunc (q : ℚ) : Int :=
  q.num.tdiv (q.den : Int)

/-- `parseInt(v)`: the argument is first converted to a string
(`undefined` becomes the non-numeric text `"undefined"`, an array its
comma-joined elements), then parsed; `none` models `NaN`. -/
def jsParseInt : JSVal → Option Int
  | .undef => none
  | .num q => some (jsTrunc q)
  | .str s => jsParseIntStr s
  | .arr elems => jsParseIntStr (jsArrToString elems)

/-- `ToNumber(v)`, used by loose equality against a number and by the
relational operators; `none` models `NaN`. -/
def jsToNumber : JSVal → Option ℚ
  | .undef => none
  | .num q => some q
  | .str s => jsToNumberStr s
  | .arr elems => jsToNumberStr (jsArrToString elems)

/-- Loose equality `n == v` between the (number-or-NaN) result of
`parseInt` and the raw value `v`: `NaN` equals nothing, `undefined`
loosely equals no number, otherwise both sides are compared as numbers. -/
def jsLooseEqIntVal (n? : Option Int) (v : JSVal) : Bool :=
  match n?, jsToNumber v with
  | some n, some q => decide ((n : ℚ) = q)
  | _, _ => false

/-- The relational test `v <= 0`: both sides pass through `ToNumber`, any
comparison against `NaN` is false. -/
def jsLeZero (v : JSVal) : Bool :=
  match jsToNumber v with
  | some q => decide (q ≤ 0)
  | none => false

/-- `util.isArray`. -/
def isArray : JSVal → Bool
  | .arr _ => true
  | _ => false

/-- The first validation test (src/routes/index.js:12):
`req.params.text === undefined`. -/
def textInvalid (v : JSVal) : Bool :=
  decide (v = JSVal.undef)

/-- The second validation test (src/routes/index.js:17):
`req.params.keywords === undefined || !util.isArray(req.params.keywords)`. -/
def keywordsInvalid (v : JSVal) : Bool :=
  decide (v = JSVal.undef) || !(isArray v)

/-- The third validation test (src/routes/index.js:22):
`req.params.distance === undefined || parseInt(req.params.distance) != req.params.distance || req.params.distance <= 0`. -/
def distanceInvalid (v : JSVal) : Bool :=
  decide (v = JSVal.undef) || !(jsLooseEqIntVal (jsParseInt v) v) || jsLeZero v

/-! ## Preprocessing pipeline -/

/-- Modelled from the spec (§4.1): the tokenizer lives in the external
`natural` package (`natural.WordTokenizer`), not in this repository; the
spec contract is splitting on word boundaries (whitespace and punctuation),
discarding delimiter characters.  A word character is a letter, digit or
underscore. -/
def isWordChar (c : Char) : Bool :=
  c.isAlphanum || c = '_'

/-- Modelled from the spec (§4.1): accumulate the current word (reversed)
while scanning; a delimiter flushes it. -/
def tokenizeAux : List Char → List Char → List String
  | [], acc => if acc = [] then [] else [⟨acc.reverse⟩]
  | c :: cs, acc =>
      if isWordChar c then tokenizeAux cs (c :: acc)
      else if acc = [] then tokenizeAux cs []
      else ⟨acc.reverse⟩ :: tokenizeAux cs []

/-- Modelled from the spec (§4.1): `tokenizer.tokenize` splits raw text
into the maximal runs of word characters. -/
def tokenize (s : String) : List String :=
  tokenizeAux s.data []

/-- `text.toLowerCase()` character by character (ASCII case folding, which
covers every token the claims exercise). -/
def toLowerStr (s : String) : String :=
  ⟨s.data.map Char.toLower⟩

/-- `isString` / `itemsToLowercase` (src/routes/index.js:46-68): `async.map`
applies the pure `isString` callback to every token and collects results in
input order.  The tokenizer always yields strings, so the `false` sentinel
branch of `isString` is unreachable and every token is lowercased. -/
def itemsToLowercase (tokenized_text : List String) : List String :=
  tokenized_text.map toLowerStr

/-- `uniqueItems` (src/routes/index.js:76-78): underscore's `_.unique`
scans left to right and appends a value only if it is not already in the
result, keeping the first occurrence of each distinct value. -/
def uniqueItems (tokenized_text : List String) : List String :=
  tokenized_text.foldl (fun result value => if value ∈ result then result else result ++ [value]) []

/-- Recursive reformulation of `uniqueItems` used in its proofs: keep the
values not yet seen, in order, threading the set of already-kept values;
`uniqueItems_eq_dedupFilter` relates the two. -/
def dedupFilter (seen : List String) : List String → List String
  | [] => []
  | x :: xs =>
      if x ∈ seen then dedupFilter seen xs
      else x :: dedupFilter (seen ++ [x]) xs

/-- Modelled from the spec (§4.4): the English stopword list is bundled
with the external `stopwords` npm package, not with this repository; the
spec pins it as a fixed static list of common English stopwords.  A
representative fixed list; the theorems below depend only on it being a
fixed list, plus membership of words such as "the". -/
def stopwords : List String :=
  ["a", "about", "above", "after", "again", "against", "all", "am", "an",
   "and", "any", "are", "as", "at", "be", "because", "been", "before",
   "being", "below", "between", "both", "but", "by", "could", "did", "do",
   "does", "doing", "down", "during", "each", "few", "for", "from",
   "further", "had", "has", "have", "having", "he", "her", "here", "hers",
   "herself", "him", "himself", "his", "how", "i", "if", "in", "into",
   "is", "it", "its", "itself", "me", "more", "most", "my", "myself",
   "no", "nor", "not", "of", "off", "on", "once", "only", "or", "other",
   "ought", "our", "ours", "ourselves", "out", "over", "own", "same",
   "she", "should", "so", "some", "such", "than", "that", "the", "their",
   "theirs", "them", "themselves", "then", "there", "these", "they",
   "this", "those", "through", "to", "too", "under", "until", "up",
   "very", "was", "we", "were", "what", "when", "where", "which", "while",
   "who", "whom", "why", "with", "would", "you", "your", "yours",
   "yourself", "yourselves"]

/-- `stopWordCleaning` (src/routes/index.js:86-88): underscore's
`_.difference(array, rest)` keeps, in order, the elements of `array` that
are not contained (exact equality) in `rest`. -/
def stopWordCleaning (tokenized_text : List String) : List String :=
  tokenized_text.filter (fun value => !stopwords.contains value)

/-- The `async.waterfall` chain (src/routes/index.js:143): tokenize, then
lowercase, then deduplicate, then remove stopwords — plain sequential
function composition since every stage is pure and succeeds. -/
def cleanTokens (text : String) : List String :=
  stopWordCleaning (uniqueItems (itemsToLowercase (tokenize text)))

/-! ## Edit distance and matching -/

/-- Modelled from the spec (§4.5): the inner recursion of the Levenshtein
recurrence over the second word, for a fixed head `x` and tail `xs` of the
first word; `levXs` is the distance function of the tail `xs`.  Splitting
the two-argument recurrence this way keeps both recursions structural. -/
def levAux (x : Char) (xs : List Char) (levXs : List Char → Nat) : List Char → Nat
  | [] => xs.length + 1
  | y :: ys =>
      min (min (levXs (y :: ys) + 1) (levAux x xs levXs ys + 1))
          (levXs ys + (if x = y then 0 else 1))

/-- Modelled from the spec (§4.5): the edit-distance function is
`natural.LevenshteinDistance` from the external `natural` package, not code
of this repository; the spec contract is the textbook Levenshtein
dynamic-programming recurrence with unit costs for single-character
insertion, deletion and substitution — `levenshtein_nil_left`,
`levenshtein_nil_right` and `levenshtein_cons_cons` below recover the
textbook recurrence exactly. -/
def levenshtein : List Char → List Char → Nat
  | [], ys => ys.length
  | x :: xs, ys => levAux x xs (fun t => levenshtein xs t) ys

/-- `calculateLevenshteinDistance` (src/routes/index.js:97-99). -/
def calculateLevenshteinDistance (word1 word2 : String) : Nat :=
  levenshtein word1.data word2.data

/-- One entry of a keyword's `results` array: the object literal
`{text: item, distance: distance}` built at src/routes/index.js:118-121. -/
structure KeywordMatch where
  text : String
  distance : Nat
deriving DecidableEq, Repr

/-- `calculateKeywordDistance` (src/routes/index.js:109-138): one
`async.parallel` task per token builds `{text, distance}`; `async.parallel`
collects the task results at their task index, so the collected list is the
in-order map over the tokens, then filtered to `val.distance <= distance`. -/
def calculateKeywordDistance (keyword : String) (tokenized_text : List String)
    (distance : Nat) : List KeywordMatch :=
  (tokenized_text.map
      (fun item => KeywordMatch.mk item (calculateLevenshteinDistance keyword item))).filter
    (fun val => val.distance ≤ distance)

/-- The object literal `{keyword: keyword, results: result}` built at
src/routes/index.js:153. -/
structure KeywordResult where
  keyword : String
  results : List KeywordMatch
deriving DecidableEq, Repr

/-- The success response body built at src/routes/index.js:165-172:
exactly the two fields `keywords` and `clean_text`. -/
structure ResponsePayload where
  keywords : List KeywordResult
  clean_text : String
deriving DecidableEq, Repr

/-- The matching and aggregation stage (src/routes/index.js:143-177): one
`async.parallel` task per input keyword (results collected in keyword
order), keywords filtered to `keyword.results.length > 0`, and the clean
tokens joined by single spaces into `clean_text`. -/
def processRequest (text : String) (kws : List String) (distance : Nat) : ResponsePayload :=
  let tokenized_text := cleanTokens text
  { keywords :=
      (kws.map (fun keyword =>
          KeywordResult.mk keyword (calculateKeywordDistance keyword tokenized_text distance))).filter
        (fun keyword => keyword.results.length > 0)
    clean_text := String.intercalate " " tokenized_text }

/-! ## The request handler -/

/-- The merged `req.params` bag the handler reads. -/
structure Request where
  text : JSVal
  keywords : JSVal
  distance : JSVal
deriving DecidableEq, Repr

/-- What the handler sends back: an error status with a message body, or
the success payload. -/
inductive Response where
  | error (status : Nat) (message : String)
  | success (payload : ResponsePayload)
deriving DecidableEq, Repr

/-- The validated threshold as a natural number: after validation,
`parseInt` of the distance is a positive integer equal to its `ToNumber`
value, so the numeric comparison `val.distance <= distance` in the matcher
is comparison against this natural number. -/
def jsDistanceNat (v : JSVal) : Nat :=
  ((jsParseInt v).getD 0).toNat

/-- `server.post('/')` (src/routes/index.js:11-185): the three validation
checks in order, each answering 404 with its exact message; when all pass,
the pipeline runs.  A defined non-string `text` makes the tokenizer throw
inside the handler, which restify's `uncaughtException` handler
(src/index.js:46-50) answers with a generic 500. -/
def handle (r : Request) : Response :=
  if textInvalid r.text then
    .error 404 "No text submitted to analyze!"
  else if keywordsInvalid r.keywords then
    .error 404 "Keyword(s) are missing! Keywords should be passed as an array."
  else if distanceInvalid r.distance then
    .error 404 "Distance is missing or it isn't an unsigned integer value."
  else
    match r.text, r.keywords with
    | .str s, .arr kws => .success (processRequest s kws (jsDistanceNat r.distance))
    | _, _ => .error 500 "uncaught exception"

/-! ## JSON serialization of the match records

The response body is JSON-stringified by the transport layer; the key
names of the emitted objects are part of the visible contract, so the
object literals are also embedded with their keys explicit. -/

inductive Json where
  | str (s : String)
  | num (n : Nat)
  | arr (elems : List Json)
  | obj (fields : List (String × Json))

/-- JSON form of the object literal `{text: item, distance: distance}`
(src/routes/index.js:118-121). -/
def keywordMatchToJson (m : KeywordMatch) : Json :=
  .obj [("text", .str m.text), ("distance", .num m.distance)]

/-- JSON form of `{keyword: keyword, results: result}`
(src/routes/index.js:153). -/
def keywordResultToJson (r : KeywordResult) : Json :=
  .obj [("keyword", .str r.keyword), ("results", .arr (r.results.map keywordMatchToJson))]

/-- JSON form of the success response body sent at
src/routes/index.js:165-172: exactly the two keys `keywords` and
`clean_text`. -/
def responsePayloadToJson (p : ResponsePayload) : Json :=
  .obj [("keywords", .arr (p.keywords.map keywordResultToJson)),
        ("clean_text", .str p.clean_text)]

/-- The keys of a JSON object. -/
def jsonObjKeys : Json → List String
  | .obj fields => fields.map Prod.fst
  | _ => []

end FindKeywords

namespace FindKeywords

/-! ## Levenshtein recurrence lemmas -/

theorem levenshtein_nil_left (ys : List Char) : levenshtein [] ys = ys.length := rfl

theorem levenshtein_nil_right (xs : List Char) : levenshtein xs [] = xs.length := by
  cases xs <;> rfl

theorem levenshtein_cons_cons (x y : Char) (xs ys : List Char) :
    levenshtein (x :: xs) (y :: ys) =
      min (min (levenshtein xs (y :: ys) + 1) (levenshtein (x :: xs) ys + 1))
        (levenshtein xs ys + (if x = y then 0 else 1)) := rfl

theorem levenshtein_self (a : List Char) : levenshtein a a = 0 := by
  induction a with
  | nil => rfl
  | cons x xs ih => rw [levenshtein_cons_cons, ih, if_pos rfl]; omega

theorem levenshtein_comm (a b : List Char) : levenshtein a b = levenshtein b a := by
  induction a generalizing b with
  | nil => rw [levenshtein_nil_left, levenshtein_nil_right]
  | cons x xs ihx =>
    induction b with
    | nil => rw [levenshtein_nil_left, levenshtein_nil_right]
    | cons y ys ihy =>
      rw [levenshtein_cons_cons, levenshtein_cons_cons, ihx (y :: ys), ihy, ihx ys]
      by_cases h : x = y
      · rw [if_pos h, if_pos h.symm]; omega
      · rw [if_neg h, if_neg (fun e => h e.symm)]; omega

/-! ## Matcher characterization -/

theorem calculateKeywordDistance_eq (keyword : String) (tokens : List String) (d : Nat) :
    calculateKeywordDistance keyword tokens d =
      (tokens.filter (fun t => decide (calculateLevenshteinDistance keyword t ≤ d))).map
        (fun t => KeywordMatch.mk t (calculateLevenshteinDistance keyword t)) := by
  unfold calculateKeywordDistance
  rw [List.filter_map]
  rfl

theorem mem_calculateKeywordDistance {m : KeywordMatch} (keyword : String)
    (tokens : List String) (d : Nat) :
    m ∈ calculateKeywordDistance keyword tokens d ↔
      m.text ∈ tokens ∧ m.distance = calculateLevenshteinDistance keyword m.text ∧
        m.distance ≤ d := by
  obtain ⟨mt, md⟩ := m
  rw [calculateKeywordDistance_eq, List.mem_map]
  dsimp only
  constructor
  · rintro ⟨t, ht, heq⟩
    injection heq with h1 h2
    subst h1
    subst h2
    have h3 := (List.mem_filter.mp ht).2
    exact ⟨(List.mem_filter.mp ht).1, rfl, by simpa using h3⟩
  · rintro ⟨ht, rfl, hle⟩
    exact ⟨mt, List.mem_filter.mpr ⟨ht, by simpa using hle⟩, rfl⟩

/-- C1: for every keyword and threshold `D` the matcher keeps exactly the
clean tokens at edit distance at most `D` from the keyword, with the
threshold inclusive: a token at distance exactly `D` (including `0` for an
exact match) is kept, and a token at distance `D + 1` is excluded. -/
theorem C1_threshold_inclusive (keyword : String) (tokens : List String) (D : Nat) :
    calculateKeywordDistance keyword tokens D =
      (tokens.filter (fun t => decide (calculateLevenshteinDistance keyword t ≤ D))).map
        (fun t => KeywordMatch.mk t (calculateLevenshteinDistance keyword t))
  ∧ (∀ t ∈ tokens, calculateLevenshteinDistance keyword t ≤ D →
      KeywordMatch.mk t (calculateLevenshteinDistance keyword t) ∈
        calculateKeywordDistance keyword tokens D)
  ∧ (∀ t, calculateLevenshteinDistance keyword t = D + 1 →
      ∀ m ∈ calculateKeywordDistance keyword tokens D, m.text ≠ t) := by
  refine ⟨calculateKeywordDistance_eq keyword tokens D, ?_, ?_⟩
  · intro t ht hle
    exact (mem_calculateKeywordDistance keyword tokens D).mpr ⟨ht, rfl, hle⟩
  · intro t hdist m hm htm
    obtain ⟨-, hd, hle⟩ := (mem_calculateKeywordDistance keyword tokens D).mp hm
    rw [htm] at hd
    omega

/-- C1 witness: "quick" is kept for keyword "quik" at threshold 1
(distance exactly 1), and "quic" is excluded at threshold 0 (distance
exactly 1 = 0 + 1). -/
theorem C1_threshold_inclusive_witness :
    KeywordMatch.mk "quick" 1 ∈ calculateKeywordDistance "quik" ["quick"] 1
  ∧ KeywordMatch.mk "quic" 1 ∉ calculateKeywordDistance "quik" ["quic"] 0 := by
  constructor
  · exact (C1_threshold_inclusive "quik" ["quick"] 1).2.1 "quick" (by decide) (by decide)
  · intro hmem
    exact (C1_threshold_inclusive "quik" ["quic"] 0).2.2 "quic" (by decide)
      (KeywordMatch.mk "quic" 1) hmem rfl

/-- C5: the edit-distance function satisfies the spec's properties:
distance of a string to itself is 0, the function is symmetric, the
distance from the empty string to "abc" is 3, and the distance from
"kitten" to "sitting" is 3. -/
theorem C5_levenshtein_properties :
    (∀ a : String, calculateLevenshteinDistance a a = 0)
  ∧ (∀ a b : String, calculateLevenshteinDistance a b = calculateLevenshteinDistance b a)
  ∧ calculateLevenshteinDistance "" "abc" = 3
  ∧ calculateLevenshteinDistance "kitten" "sitting" = 3 :=
  ⟨fun a => levenshtein_self a.data, fun a b => levenshtein_comm a.data b.data,
   by decide, by decide⟩

end FindKeywords

namespace FindKeywords

/-! ## Deduplication lemmas -/

theorem foldl_dedup_eq (l acc : List String) :
    l.foldl (fun result value => if value ∈ result then result else result ++ [value]) acc
      = acc ++ dedupFilter acc l := by
  induction l generalizing acc with
  | nil => simp [dedupFilter]
  | cons x xs ih =>
    by_cases hx : x ∈ acc
    · rw [List.foldl_cons, if_pos hx, dedupFilter, if_pos hx, ih]
    · rw [List.foldl_cons, if_neg hx, dedupFilter, if_neg hx, ih, List.append_assoc,
        List.singleton_append]

theorem uniqueItems_eq_dedupFilter (l : List String) :
    uniqueItems l = dedupFilter [] l := by
  simpa using foldl_dedup_eq l []

theorem mem_dedupFilter {a : String} (seen l : List String) :
    a ∈ dedupFilter seen l ↔ a ∈ l ∧ a ∉ seen := by
  induction l generalizing seen with
  | nil => simp [dedupFilter]
  | cons x xs ih =>
    by_cases hx : x ∈ seen
    · rw [dedupFilter, if_pos hx, ih]
      simp only [List.mem_cons]
      constructor
      · rintro ⟨h1, h2⟩
        exact ⟨Or.inr h1, h2⟩
      · rintro ⟨h1 | h1, h2⟩
        · exact absurd (h1 ▸ hx) h2
        · exact ⟨h1, h2⟩
    · rw [dedupFilter, if_neg hx]
      simp only [List.mem_cons, ih, List.mem_append, List.mem_singleton]
      constructor
      · rintro (rfl | ⟨h1, h2⟩)
        · exact ⟨Or.inl rfl, hx⟩
        · exact ⟨Or.inr h1, fun hs => h2 (Or.inl hs)⟩
      · rintro ⟨rfl | h1, h2⟩
        · exact Or.inl rfl
        · by_cases hax : a = x
          · exact Or.inl hax
          · exact Or.inr ⟨h1, fun hs => hs.elim h2 (fun h => h.elim hax (List.not_mem_nil a))⟩

theorem dedupFilter_nodup (seen l : List String) : (dedupFilter seen l).Nodup := by
  induction l generalizing seen with
  | nil => simp [dedupFilter]
  | cons x xs ih =>
    by_cases hx : x ∈ seen
    · rw [dedupFilter, if_pos hx]
      exact ih seen
    · rw [dedupFilter, if_neg hx]
      refine List.nodup_cons.mpr ⟨fun hmem => ?_, ih _⟩
      exact ((mem_dedupFilter _ _).mp hmem).2 (List.mem_append.mpr (Or.inr (by simp)))

theorem dedupFilter_sublist (seen l : List String) : (dedupFilter seen l).Sublist l := by
  induction l generalizing seen with
  | nil => simp [dedupFilter]
  | cons x xs ih =>
    by_cases hx : x ∈ seen
    · rw [dedupFilter, if_pos hx]
      exact (ih seen).trans (List.sublist_cons_self x xs)
    · rw [dedupFilter, if_neg hx]
      exact List.Sublist.cons₂ x (ih _)

theorem dedupFilter_pairwise_indexOf (l : List String) :
    ∀ seen, (dedupFilter seen l).Pairwise (fun a b => l.indexOf a < l.indexOf b) := by
  induction l with
  | nil => intro seen; simp [dedupFilter]
  | cons x xs ih =>
    intro seen
    by_cases hx : x ∈ seen
    · rw [dedupFilter, if_pos hx]
      refine List.Pairwise.imp_of_mem ?_ (ih seen)
      intro a b ha hb hab
      have hax : a ≠ x := fun e => ((mem_dedupFilter _ _).mp ha).2 (e ▸ hx)
      have hbx : b ≠ x := fun e => ((mem_dedupFilter _ _).mp hb).2 (e ▸ hx)
      rw [List.indexOf_cons_ne _ (by simpa using hax.symm),
        List.indexOf_cons_ne _ (by simpa using hbx.symm)]
      omega
    · rw [dedupFilter, if_neg hx]
      refine List.pairwise_cons.mpr ⟨?_, ?_⟩
      · intro b hb
        have hbx : b ≠ x := fun e =>
          ((mem_dedupFilter _ _).mp hb).2 (List.mem_append.mpr (Or.inr (by simp [e])))
        rw [List.indexOf_cons_self, List.indexOf_cons_ne _ (by simpa using hbx.symm)]
        omega
      · refine List.Pairwise.imp_of_mem ?_ (ih (seen ++ [x]))
        intro a b ha hb hab
        have hax : a ≠ x := fun e =>
          ((mem_dedupFilter _ _).mp ha).2 (List.mem_append.mpr (Or.inr (by simp [e])))
        have hbx : b ≠ x := fun e =>
          ((mem_dedupFilter _ _).mp hb).2 (List.mem_append.mpr (Or.inr (by simp [e])))
        rw [List.indexOf_cons_ne _ (by simpa using hax.symm),
          List.indexOf_cons_ne _ (by simpa using hbx.symm)]
        omega

/-- C3: deduplication keeps each distinct value of the input exactly once
(no repeats, same element set), by exact value equality, and the survivors
appear in the order of their first occurrence in the input: the output is
an in-order sublist of the input and the positions of the first occurrences
(`indexOf`) are strictly increasing along the output. -/
theorem C3_dedup_first_occurrence (l : List String) :
    (uniqueItems l).Nodup
  ∧ (∀ a, a ∈ uniqueItems l ↔ a ∈ l)
  ∧ (uniqueItems l).Sublist l
  ∧ (uniqueItems l).Pairwise (fun a b => l.indexOf a < l.indexOf b) := by
  refine ⟨?_, ?_, ?_, ?_⟩ <;> rw [uniqueItems_eq_dedupFilter]
  · exact dedupFilter_nodup [] l
  · intro a
    rw [mem_dedupFilter]
    simp
  · exact dedupFilter_sublist [] l
  · exact dedupFilter_pairwise_indexOf l []

/-- C3 witness: deduplicating `["b", "a", "b"]` keeps `"a"`, and the
concrete output is `["b", "a"]` — first occurrences, in order. -/
theorem C3_dedup_first_occurrence_witness :
    "a" ∈ uniqueItems ["b", "a", "b"] ∧ uniqueItems ["b", "a", "b"] = ["b", "a"] :=
  ⟨((C3_dedup_first_occurrence ["b", "a", "b"]).2.1 "a").mpr (by decide), by decide⟩

end FindKeywords

namespace FindKeywords

/-! ## Stopword filter -/

theorem mem_stopWordCleaning {t : String} (l : List String) :
    t ∈ stopWordCleaning l ↔ t ∈ l ∧ t ∉ stopwords := by
  simp [stopWordCleaning, List.mem_filter]

/-- C4: the stopword filter removes exactly the tokens that are members of
the fixed bundled English stopword list, by exact membership: no stopword
survives, every non-stopword input token survives, and the survivors keep
their relative input order. -/
theorem C4_stopword_filter (l : List String) :
    (∀ s ∈ stopwords, s ∉ stopWordCleaning l)
  ∧ (∀ t ∈ l, t ∉ stopwords → t ∈ stopWordCleaning l)
  ∧ (∀ t ∈ stopWordCleaning l, t ∈ l ∧ t ∉ stopwords)
  ∧ (stopWordCleaning l).Sublist l := by
  refine ⟨?_, ?_, ?_, List.filter_sublist l⟩
  · intro s hs hmem
    exact ((mem_stopWordCleaning l).mp hmem).2 hs
  · intro t ht hns
    exact (mem_stopWordCleaning l).mpr ⟨ht, hns⟩
  · intro t ht
    exact (mem_stopWordCleaning l).mp ht

/-- C4 witness: "the" (a stopword) is removed and "quick" (not a
stopword) survives. -/
theorem C4_stopword_filter_witness :
    "the" ∉ stopWordCleaning ["the", "quick"] ∧ "quick" ∈ stopWordCleaning ["the", "quick"] :=
  ⟨(C4_stopword_filter ["the", "quick"]).1 "the" (by decide),
   (C4_stopword_filter ["the", "quick"]).2.1 "quick" (by decide) (by decide)⟩

end FindKeywords

namespace FindKeywords

/-! ## Response shape and ordering -/

theorem processRequest_keywords (text : String) (kws : List String) (D : Nat) :
    (processRequest text kws D).keywords =
      (kws.map (fun k =>
          KeywordResult.mk k (calculateKeywordDistance k (cleanTokens text) D))).filter
        (fun r => decide (r.results.length > 0)) := rfl

theorem keywords_map_keyword (text : String) (kws : List String) (D : Nat) :
    (processRequest text kws D).keywords.map KeywordResult.keyword
      = kws.filter
          (fun k => decide ((calculateKeywordDistance k (cleanTokens text) D).length > 0)) := by
  rw [processRequest_keywords, List.filter_map, List.map_map]
  have h : (KeywordResult.keyword ∘ fun k =>
      KeywordResult.mk k (calculateKeywordDistance k (cleanTokens text) D)) = id := rfl
  rw [h, List.map_id]
  rfl

theorem calculateKeywordDistance_map_text (keyword : String) (tokens : List String) (d : Nat) :
    (calculateKeywordDistance keyword tokens d).map KeywordMatch.text =
      tokens.filter (fun t => decide (calculateLevenshteinDistance keyword t ≤ d)) := by
  rw [calculateKeywordDistance_eq, List.map_map]
  have h : (KeywordMatch.text ∘ fun t =>
      KeywordMatch.mk t (calculateLevenshteinDistance keyword t)) = id := rfl
  rw [h, List.map_id]

/-- C2: the success response consists of exactly the two fields `keywords`
and `clean_text`; `keywords` is the in-order map over the input keywords
filtered down to the keywords with at least one qualifying match (a
keyword with an empty match list does not appear at all), and `clean_text`
is the clean token sequence joined by single spaces. -/
theorem C2_response_shape (text : String) (kws : List String) (D : Nat) :
    (processRequest text kws D).keywords =
      (kws.map (fun k =>
          KeywordResult.mk k (calculateKeywordDistance k (cleanTokens text) D))).filter
        (fun r => decide (r.results.length > 0))
  ∧ (∀ r ∈ (processRequest text kws D).keywords, r.results ≠ [])
  ∧ (∀ k ∈ kws, calculateKeywordDistance k (cleanTokens text) D = [] →
      ∀ r ∈ (processRequest text kws D).keywords, r.keyword ≠ k)
  ∧ (processRequest text kws D).clean_text = String.intercalate " " (cleanTokens text)
  ∧ jsonObjKeys (responsePayloadToJson (processRequest text kws D))
      = ["keywords", "clean_text"] := by
  refine ⟨rfl, ?_, ?_, rfl, rfl⟩
  · intro r hr hnil
    rw [processRequest_keywords, List.mem_filter] at hr
    have h2 := hr.2
    rw [hnil] at h2
    simp at h2
  · intro k hk hempty r hr hkey
    rw [processRequest_keywords, List.mem_filter, List.mem_map] at hr
    obtain ⟨⟨k', hk', rfl⟩, hlen⟩ := hr
    dsimp at hkey hlen
    subst hkey
    rw [hempty] at hlen
    simp at hlen

/-- C2 witness: for text "The quick brown fox", keyword "quik" and
threshold 1 the response keeps the one matching keyword and its entry has
a non-empty result list. -/
theorem C2_response_shape_witness :
    KeywordResult.mk "quik" [KeywordMatch.mk "quick" 1]
        ∈ (processRequest "The quick brown fox" ["quik"] 1).keywords
  ∧ (KeywordResult.mk "quik" [KeywordMatch.mk "quick" 1]).results ≠ [] :=
  ⟨by decide,
   (C2_response_shape "The quick brown fox" ["quik"] 1).2.1
     (KeywordResult.mk "quik" [KeywordMatch.mk "quick" 1]) (by decide)⟩

/-- C10: the handler's aggregation is deterministic and order-preserving
despite the per-keyword and per-token fan-out: the embedding of
`async.parallel` collects each task's result at the task's own index, so
the response is a pure function of the request; the surviving keywords
appear in input-keyword order (an in-order filter of the input keywords),
and each keyword's match entries appear in clean-token order (an in-order
filter of the clean token sequence). -/
theorem C10_deterministic_ordering (text : String) (kws : List String) (D : Nat) :
    (processRequest text kws D).keywords.map KeywordResult.keyword
        = kws.filter (fun k => !(calculateKeywordDistance k (cleanTokens text) D).isEmpty)
  ∧ ((processRequest text kws D).keywords.map KeywordResult.keyword).Sublist kws
  ∧ ∀ res ∈ (processRequest text kws D).keywords,
      res.results.map KeywordMatch.text
        = (cleanTokens text).filter
            (fun t => decide (calculateLevenshteinDistance res.keyword t ≤ D)) := by
  refine ⟨?_, ?_, ?_⟩
  · rw [keywords_map_keyword]
    refine List.filter_congr ?_
    intro k _
    cases calculateKeywordDistance k (cleanTokens text) D <;> simp
  · rw [keywords_map_keyword]
    exact List.filter_sublist kws
  · intro res hres
    rw [processRequest_keywords, List.mem_filter, List.mem_map] at hres
    obtain ⟨⟨k, hk, rfl⟩, -⟩ := hres
    exact calculateKeywordDistance_map_text k (cleanTokens text) D

/-- C10 witness: for text "cat dog", keywords ["dog", "cat"] and threshold
0, the surviving keywords keep the input order and the "dog" entry lists
its matches in clean-token order. -/
theorem C10_deterministic_ordering_witness :
    (processRequest "cat dog" ["dog", "cat"] 0).keywords.map KeywordResult.keyword
        = ["dog", "cat"].filter
            (fun k => !(calculateKeywordDistance k (cleanTokens "cat dog") 0).isEmpty)
  ∧ (KeywordResult.mk "dog" (calculateKeywordDistance "dog" (cleanTokens "cat dog") 0)).results.map
        KeywordMatch.text
      = (cleanTokens "cat dog").filter
          (fun t => decide (calculateLevenshteinDistance "dog" t ≤ 0)) :=
  ⟨(C10_deterministic_ordering "cat dog" ["dog", "cat"] 0).1,
   (C10_deterministic_ordering "cat dog" ["dog", "cat"] 0).2.2
     (KeywordResult.mk "dog" (calculateKeywordDistance "dog" (cleanTokens "cat dog") 0))
     (by decide)⟩

end FindKeywords

namespace FindKeywords

/-! ## Validation and the handler -/

theorem handle_success (r : Request) (s : String) (kws : List String)
    (ht : r.text = JSVal.str s) (hk : r.keywords = JSVal.arr kws)
    (hd : distanceInvalid r.distance = false) :
    handle r = Response.success (processRequest s kws (jsDistanceNat r.distance)) := by
  obtain ⟨t, k, d⟩ := r
  dsimp at ht hk hd ⊢
  subst ht
  subst hk
  have h : handle ⟨JSVal.str s, JSVal.arr kws, d⟩
      = if distanceInvalid d = true then
          Response.error 404 "Distance is missing or it isn't an unsigned integer value."
        else Response.success (processRequest s kws (jsDistanceNat d)) := rfl
  rw [h, hd]
  simp

/-- C6: validation failures are answered with status 404, checked in this
order with these exact messages — missing text first, then
missing/non-array keywords, then an invalid distance — and the pipeline
runs only when all three checks pass. -/
theorem C6_validation_order (r : Request) :
    (r.text = JSVal.undef →
        handle r = Response.error 404 "No text submitted to analyze!")
  ∧ (r.text ≠ JSVal.undef → keywordsInvalid r.keywords = true →
        handle r = Response.error 404
          "Keyword(s) are missing! Keywords should be passed as an array.")
  ∧ (r.text ≠ JSVal.undef → keywordsInvalid r.keywords = false →
        distanceInvalid r.distance = true →
        handle r = Response.error 404
          "Distance is missing or it isn't an unsigned integer value.")
  ∧ (∀ s kws, r.text = JSVal.str s → r.keywords = JSVal.arr kws →
        distanceInvalid r.distance = false →
        handle r = Response.success (processRequest s kws (jsDistanceNat r.distance))) := by
  obtain ⟨t, k, d⟩ := r
  refine ⟨?_, ?_, ?_, ?_⟩
  · intro ht
    dsimp at ht
    subst ht
    rfl
  · intro ht hk
    dsimp at ht hk ⊢
    have h1 : textInvalid t = false := by simp [textInvalid, ht]
    unfold handle
    rw [h1, hk]
    simp
  · intro ht hk hd
    dsimp at ht hk hd ⊢
    have h1 : textInvalid t = false := by simp [textInvalid, ht]
    unfold handle
    rw [h1, hk, hd]
    simp
  · intro s kws hts hks hd
    exact handle_success ⟨t, k, d⟩ s kws hts hks hd

/-- C6 witness: the three error responses at concrete requests, in order
of precedence, and a success once all three checks pass. -/
theorem C6_validation_order_witness :
    handle (Request.mk JSVal.undef JSVal.undef JSVal.undef)
        = Response.error 404 "No text submitted to analyze!"
  ∧ handle (Request.mk (JSVal.str "x") (JSVal.num 1) JSVal.undef)
        = Response.error 404
            "Keyword(s) are missing! Keywords should be passed as an array."
  ∧ handle (Request.mk (JSVal.str "x") (JSVal.arr ["a"]) JSVal.undef)
        = Response.error 404
            "Distance is missing or it isn't an unsigned integer value."
  ∧ handle (Request.mk (JSVal.str "x") (JSVal.arr ["a"]) (JSVal.str "1"))
        = Response.success (processRequest "x" ["a"]
            (jsDistanceNat (JSVal.str "1"))) :=
  ⟨(C6_validation_order ⟨JSVal.undef, JSVal.undef, JSVal.undef⟩).1 rfl,
   (C6_validation_order ⟨JSVal.str "x", JSVal.num 1, JSVal.undef⟩).2.1
     (by decide) (by decide),
   (C6_validation_order ⟨JSVal.str "x", JSVal.arr ["a"], JSVal.undef⟩).2.2.1
     (by decide) (by decide) (by decide),
   (C6_validation_order ⟨JSVal.str "x", JSVal.arr ["a"], JSVal.str "1"⟩).2.2.2
     "x" ["a"] rfl rfl (by decide)⟩

/-- C7: the distance validator accepts a value exactly when it is
quasi-numeric: `parseInt` of the value is an integer `n` equal to the
value's own numeric (`ToNumber`) interpretation and `n` is positive —
so integral numbers and integral numeric strings such as "3" pass, while
non-numeric strings, non-integral numbers such as 3.5, zero and negative
values are rejected. -/
theorem C7_distance_quasi_numeric (v : JSVal) :
    (distanceInvalid v = false ↔
      ∃ n : ℤ, jsParseInt v = some n ∧ jsToNumber v = some ((n : ℚ)) ∧ 0 < n)
  ∧ distanceInvalid (JSVal.num 3) = false
  ∧ distanceInvalid (JSVal.str "3") = false
  ∧ distanceInvalid (JSVal.str "abc") = true
  ∧ distanceInvalid (JSVal.num (mkRat 7 2)) = true
  ∧ distanceInvalid (JSVal.num 0) = true
  ∧ distanceInvalid (JSVal.num (-2)) = true := by
  refine ⟨?_, by decide, by decide, by decide, by decide, by decide, by decide⟩
  constructor
  · intro h
    simp only [distanceInvalid, Bool.or_eq_false_iff] at h
    obtain ⟨⟨h1, h2⟩, h3⟩ := h
    rcases hp : jsParseInt v with _ | n
    · rw [Bool.not_eq_false'] at h2
      unfold jsLooseEqIntVal at h2
      rw [hp] at h2
      exact absurd h2 (by cases jsToNumber v <;> simp)
    · rw [Bool.not_eq_false'] at h2
      unfold jsLooseEqIntVal at h2
      rw [hp] at h2
      rcases hq : jsToNumber v with _ | q
      · rw [hq] at h2
        simp at h2
      · rw [hq] at h2
        simp only [decide_eq_true_eq] at h2
        refine ⟨n, rfl, by rw [h2], ?_⟩
        unfold jsLeZero at h3
        rw [hq] at h3
        simp only [decide_eq_false_iff_not, not_le] at h3
        rw [← h2] at h3
        exact_mod_cast h3
  · rintro ⟨n, hp, hq, hn⟩
    have hv : v ≠ JSVal.undef := by
      rintro rfl
      exact Option.noConfusion hp
    simp only [distanceInvalid, Bool.or_eq_false_iff]
    refine ⟨⟨by simp [hv], ?_⟩, ?_⟩
    · rw [Bool.not_eq_false']
      unfold jsLooseEqIntVal
      rw [hp, hq]
      simp
    · unfold jsLeZero
      rw [hq]
      simp only [decide_eq_false_iff_not, not_le]
      exact_mod_cast hn

/-- C7 witness: the string "2" is quasi-numeric and positive, so the
validator accepts it. -/
theorem C7_distance_quasi_numeric_witness : distanceInvalid (JSVal.str "2") = false :=
  ((C7_distance_quasi_numeric (JSVal.str "2")).1).mpr ⟨2, by decide, by decide, by decide⟩

end FindKeywords

namespace FindKeywords

/-! ## Empty text and keywords; match record field names -/

/-- C8 counterexample: a request whose `text` is the empty string and
whose `keywords` is the empty array passes validation — the handler runs
the pipeline and answers with a success payload, not with an error, so
validation does not require non-emptiness of either field (the code only
tests `text === undefined` and `isArray(keywords)`). -/
theorem C8_counterexample :
    handle (Request.mk (JSVal.str "") (JSVal.arr []) (JSVal.str "1"))
      = Response.success (ResponsePayload.mk [] "") := by decide

/-- C8 (amended): validation requires `text` to be present (any string,
the empty string included) and `keywords` to be an array (possibly empty);
whenever those hold and the distance is valid, validation passes and the
pipeline runs, producing the success payload. -/
theorem C8_amended_presence_only (r : Request) (s : String) (kws : List String)
    (ht : r.text = JSVal.str s) (hk : r.keywords = JSVal.arr kws)
    (hd : distanceInvalid r.distance = false) :
    handle r = Response.success (processRequest s kws (jsDistanceNat r.distance)) :=
  handle_success r s kws ht hk hd

/-- C8 witness: the amended statement at the empty text and empty keyword
array. -/
theorem C8_amended_presence_only_witness :
    handle (Request.mk (JSVal.str "") (JSVal.arr []) (JSVal.str "2"))
      = Response.success (processRequest "" [] (jsDistanceNat (JSVal.str "2"))) :=
  C8_amended_presence_only (Request.mk (JSVal.str "") (JSVal.arr []) (JSVal.str "2"))
    "" [] rfl rfl (by decide)

/-- C9 counterexample: the match record the code emits for an exact match
of keyword "hello" carries its token under the key `text` — its key list
is `["text", "distance"]` and contains no `matchedText` key. -/
theorem C9_counterexample :
    (calculateKeywordDistance "hello" ["hello"] 1).map keywordMatchToJson
      = [Json.obj [("text", Json.str "hello"), ("distance", Json.num 0)]]
  ∧ "matchedText" ∉ jsonObjKeys (keywordMatchToJson (KeywordMatch.mk "hello" 0)) :=
  ⟨rfl, by decide⟩

/-- C9 (amended): each match entry produced for a keyword is an object
with field `text` (not `matchedText`) holding the matched candidate token
and field `distance` holding the integer edit distance between the keyword
and that token. -/
theorem C9_amended_match_fields (keyword : String) (tokens : List String) (D : Nat) :
    ∀ m ∈ calculateKeywordDistance keyword tokens D,
      keywordMatchToJson m
          = Json.obj [("text", Json.str m.text), ("distance", Json.num m.distance)]
      ∧ jsonObjKeys (keywordMatchToJson m) = ["text", "distance"]
      ∧ m.distance = calculateLevenshteinDistance keyword m.text := by
  intro m hm
  exact ⟨rfl, rfl, ((mem_calculateKeywordDistance keyword tokens D).mp hm).2.1⟩

/-- C9 witness: the emitted record for keyword "world" matching token
"world" has exactly the keys `text` and `distance`. -/
theorem C9_amended_match_fields_witness :
    jsonObjKeys (keywordMatchToJson (KeywordMatch.mk "world" 0)) = ["text", "distance"] :=
  (C9_amended_match_fields "world" ["world"] 0 (KeywordMatch.mk "world" 0) (by decide)).2.1

end FindKeywords
